import Mathlib

/-!
Verification of the core model of `src/components/RackingVisualizer.tsx`
(rack scene generation, component identity, coloring policy, picking,
and the rack / maintenance-record collection operations).

JavaScript strings are modelled as `List Char` (`Str`); the decimal
rendering of a non-negative integer inside a template literal is
modelled by `natChars`.
-/

set_option maxRecDepth 4000

namespace Rackcentral

/-- JavaScript strings, modelled as lists of characters. -/
abbrev Str := List Char

/-- Decimal digit character, as produced by JavaScript number-to-string
conversion for a single digit (only ever applied to `d < 10`). -/
def digitChar (d : Nat) : Char :=
  if d = 0 then '0' else if d = 1 then '1' else if d = 2 then '2'
  else if d = 3 then '3' else if d = 4 then '4' else if d = 5 then '5'
  else if d = 6 then '6' else if d = 7 then '7' else if d = 8 then '8'
  else '9'

/-- Fuel-based little-endian base-10 digit list (the fuel makes it
structurally recursive, hence kernel-computable; with `fuel ≥ n` it agrees
with `Nat.digits 10 n`). -/
def natDigitsRev (fuel n : Nat) : List Nat :=
  match fuel with
  | 0 => []
  | fuel + 1 => if n = 0 then [] else n % 10 :: natDigitsRev fuel (n / 10)

/-- Decimal rendering of a natural number, as produced by a JavaScript
template literal `${'$'}{n}` for a non-negative integer `n`. -/
def natChars (n : Nat) : Str :=
  if n = 0 then ['0'] else ((natDigitsRev n n).map digitChar).reverse

theorem natDigitsRev_eq_digits : ∀ fuel n, n ≤ fuel → natDigitsRev fuel n = Nat.digits 10 n := by
  intro fuel
  induction fuel with
  | zero =>
    intro n hn
    have : n = 0 := by omega
    simp [natDigitsRev, this]
  | succ f ih =>
    intro n hn
    by_cases h0 : n = 0
    · simp [natDigitsRev, h0]
    · have hdiv : n / 10 ≤ f := by
        have := Nat.div_lt_self (Nat.pos_of_ne_zero h0) (by norm_num : 1 < 10)
        omega
      rw [natDigitsRev, if_neg h0, ih (n / 10) hdiv,
        Nat.digits_def' (by norm_num : 1 < 10) (Nat.pos_of_ne_zero h0)]

theorem natChars_eq (n : Nat) :
    natChars n = if n = 0 then ['0'] else ((Nat.digits 10 n).map digitChar).reverse := by
  unfold natChars
  rw [natDigitsRev_eq_digits n n le_rfl]

theorem digitChar_val (d : Nat) : 48 ≤ (digitChar d).toNat ∧ (digitChar d).toNat ≤ 57 := by
  unfold digitChar
  repeat' split
  all_goals decide

theorem digitChar_inj_lt : ∀ d < 10, ∀ e < 10, digitChar d = digitChar e → d = e := by
  decide

theorem natChars_ne_nil (n : Nat) : natChars n ≠ [] := by
  rw [natChars_eq]
  split
  · simp
  · simp [Nat.digits_ne_nil_iff_ne_zero, *]

theorem mem_natChars_val {c : Char} {n : Nat} (h : c ∈ natChars n) :
    48 ≤ c.toNat ∧ c.toNat ≤ 57 := by
  rw [natChars_eq] at h
  split at h
  · simp only [List.mem_singleton] at h
    subst h
    decide
  · rw [List.mem_reverse] at h
    rcases List.mem_map.mp h with ⟨d, _, rfl⟩
    exact digitChar_val d

theorem natChars_injective : ∀ {m n : Nat}, natChars m = natChars n → m = n := by
  have map_inj : ∀ (l1 l2 : List Nat), (∀ a ∈ l1, a < 10) → (∀ a ∈ l2, a < 10) →
      l1.map digitChar = l2.map digitChar → l1 = l2 := by
    intro l1
    induction l1 with
    | nil => intro l2 _ _ h; cases l2 <;> simp_all
    | cons a t ih =>
      intro l2 h1 h2 h
      cases l2 with
      | nil => simp_all
      | cons b t2 =>
        simp only [List.map_cons, List.cons.injEq] at h
        have ha : a = b := digitChar_inj_lt a (h1 a (by simp)) b (h2 b (by simp)) h.1
        have ht : t = t2 := ih t2 (fun x hx => h1 x (by simp [hx]))
          (fun x hx => h2 x (by simp [hx])) h.2
        simp [ha, ht]
  intro m n h
  rw [natChars_eq, natChars_eq] at h
  by_cases hm : m = 0 <;> by_cases hn : n = 0 <;> simp [hm, hn] at h ⊢
  · -- m = 0, n ≠ 0 : ['0'] = reverse (map digitChar (digits 10 n))
    exfalso
    have h' : (Nat.digits 10 n).map digitChar = ['0'] := by
      have := congrArg List.reverse h
      simpa using this.symm
    have hd : Nat.digits 10 n = [0] := by
      apply map_inj
      · intro a ha; exact Nat.digits_lt_base (by norm_num) ha
      · intro a ha; simp at ha; omega
      · simpa [digitChar] using h'
    have := Nat.ofDigits_digits 10 n
    rw [hd] at this
    simp [Nat.ofDigits] at this
    exact hn this.symm
  · exfalso
    have h' : (Nat.digits 10 m).map digitChar = ['0'] := by
      have := congrArg List.reverse h
      simpa using this
    have hd : Nat.digits 10 m = [0] := by
      apply map_inj
      · intro a ha; exact Nat.digits_lt_base (by norm_num) ha
      · intro a ha; simp at ha; omega
      · simpa [digitChar] using h'
    have := Nat.ofDigits_digits 10 m
    rw [hd] at this
    simp [Nat.ofDigits] at this
    exact hm this.symm
  · have h' : (Nat.digits 10 m).map digitChar = (Nat.digits 10 n).map digitChar := by
      have := congrArg List.reverse h
      simpa using this
    have hd : Nat.digits 10 m = Nat.digits 10 n := by
      apply map_inj
      · intro a ha; exact Nat.digits_lt_base (by norm_num) ha
      · intro a ha; exact Nat.digits_lt_base (by norm_num) ha
      · exact h'
    have h1 := Nat.ofDigits_digits 10 m
    have h2 := Nat.ofDigits_digits 10 n
    rw [hd] at h1
    rw [h2] at h1
    exact h1.symm

theorem dash_not_mem_natChars (n : Nat) : '-' ∉ natChars n := by
  intro h
  have := mem_natChars_val h
  revert this
  decide

/-- Split a string at every `'-'` character (tokenization used to reason
about the delimiter-joined component-identifier scheme). -/
def splitDash : Str → List Str
  | [] => [[]]
  | c :: cs =>
    let r := splitDash cs
    if c = '-' then [] :: r
    else (c :: r.headI) :: r.tail

/-- Join token lists back with `'-'`; left inverse of `splitDash`. -/
def joinDash : List Str → Str
  | [] => []
  | [t] => t
  | t :: ts => t ++ '-' :: joinDash ts

theorem splitDash_ne_nil (s : Str) : splitDash s ≠ [] := by
  cases s with
  | nil => simp [splitDash]
  | cons c cs =>
    simp only [splitDash]
    split <;> simp

theorem joinDash_cons (t : Str) (ts : List Str) (h : ts ≠ []) :
    joinDash (t :: ts) = t ++ '-' :: joinDash ts := by
  cases ts with
  | nil => exact absurd rfl h
  | cons u us => rfl

theorem joinDash_splitDash (s : Str) : joinDash (splitDash s) = s := by
  induction s with
  | nil => rfl
  | cons c cs ih =>
    simp only [splitDash]
    split
    · rw [joinDash_cons _ _ (splitDash_ne_nil cs), ih]
      simp [*]
    · rcases hr : splitDash cs with _ | ⟨h0, r0⟩
      · exact absurd hr (splitDash_ne_nil cs)
      · rw [hr] at ih
        cases r0 with
        | nil =>
          simp only [List.headI, List.tail]
          simp only [joinDash] at ih ⊢
          simp [ih]
        | cons h1 r1 =>
          simp only [List.headI, List.tail]
          rw [joinDash_cons h0 (h1 :: r1) (by simp)] at ih
          rw [joinDash_cons (c :: h0) (h1 :: r1) (by simp)]
          simp only [List.cons_append, List.cons.injEq]
          exact ⟨trivial, ih⟩

theorem splitDash_injective {s t : Str} (h : splitDash s = splitDash t) : s = t := by
  have := congrArg joinDash h
  rwa [joinDash_splitDash, joinDash_splitDash] at this

theorem splitDash_append_dash (a b : Str) :
    splitDash (a ++ '-' :: b) = splitDash a ++ splitDash b := by
  induction a with
  | nil => simp [splitDash]
  | cons x a ih =>
    simp only [List.cons_append, splitDash]
    split
    · simp [ih]
    · rcases ha : splitDash a with _ | ⟨h0, r0⟩
      · exact absurd ha (splitDash_ne_nil a)
      · rw [ha] at ih
        simp [ih, ha]

theorem splitDash_of_no_dash {s : Str} (h : '-' ∉ s) : splitDash s = [s] := by
  induction s with
  | nil => rfl
  | cons c cs ih =>
    have hc : c ≠ '-' := fun hc => h (by simp [hc])
    have ih' := ih (fun hm => h (by simp [hm]))
    simp [splitDash, hc, ih']

/-- Front/back side tag used by upright and beam componentIds. -/
inductive Side
  | front
  | back
deriving DecidableEq

/-- String rendering of a side, as interpolated by the source template
literals. -/
def sideChars : Side → Str
  | .front => "front".data
  | .back => "back".data

/-- The component kinds whose names appear in the componentId template
literals of the rack build effect. -/
inductive CKind
  | upright
  | brace
  | connector
  | beam
  | crossbar
  | deck
  | pallet
deriving DecidableEq

def kindChars : CKind → Str
  | .upright => "upright".data
  | .brace => "brace".data
  | .connector => "connector".data
  | .beam => "beam".data
  | .crossbar => "crossbar".data
  | .deck => "deck".data
  | .pallet => "pallet".data

/-- A structural element of one rack, with the positional indices that its
componentId template literal interpolates. -/
inductive Component
  | upright (bay : Nat) (side : Side)
  | brace (bay level : Nat)
  | connector (bay level : Nat)
  | beam (bay level : Nat) (side : Side)
  | crossbar (bay level idx : Nat)
  | deck (bay level : Nat)
  | pallet (bay level : Nat)
deriving DecidableEq

def kindOf : Component → CKind
  | .upright .. => .upright
  | .brace .. => .brace
  | .connector .. => .connector
  | .beam .. => .beam
  | .crossbar .. => .crossbar
  | .deck .. => .deck
  | .pallet .. => .pallet

/-- The index tokens interpolated after the kind name, in template order. -/
def idxTokens : Component → List Str
  | .upright bay side => [natChars bay, sideChars side]
  | .brace bay level => [natChars bay, natChars level]
  | .connector bay level => [natChars bay, natChars level]
  | .beam bay level side => [natChars bay, natChars level, sideChars side]
  | .crossbar bay level idx => [natChars bay, natChars level, natChars idx]
  | .deck bay level => [natChars bay, natChars level]
  | .pallet bay level => [natChars bay, natChars level]

/-- The componentId template literal, e.g.
`` `${rack.id}-upright-${bay}-${side}` ``: the rack id, then the kind
name, then the index tokens, all joined with `'-'`. -/
def componentId (rackId : Str) (c : Component) : Str :=
  rackId ++ '-' :: joinDash (kindChars (kindOf c) :: idxTokens c)

theorem dash_not_mem_kindChars (k : CKind) : '-' ∉ kindChars k := by
  cases k <;> decide

theorem dash_not_mem_sideChars (s : Side) : '-' ∉ sideChars s := by
  cases s <;> decide

theorem kindChars_injective {k1 k2 : CKind} (h : kindChars k1 = kindChars k2) : k1 = k2 := by
  cases k1 <;> cases k2 <;> revert h <;> decide

theorem sideChars_injective {s1 s2 : Side} (h : sideChars s1 = sideChars s2) : s1 = s2 := by
  cases s1 <;> cases s2 <;> revert h <;> decide

theorem natChars_ne_kindChars (n : Nat) (k : CKind) : natChars n ≠ kindChars k := by
  intro h
  have hmem : (kindChars k).headI ∈ natChars n := by
    rw [h]; cases k <;> decide
  have hval := mem_natChars_val hmem
  have hletter : 97 ≤ ((kindChars k).headI).toNat := by cases k <;> decide
  omega

theorem sideChars_ne_kindChars (s : Side) (k : CKind) : sideChars s ≠ kindChars k := by
  cases s <;> cases k <;> decide

theorem idxTokens_ne_kindChars (c : Component) :
    ∀ x ∈ idxTokens c, ∀ k, x ≠ kindChars k := by
  cases c <;>
    simp only [idxTokens, List.mem_cons, List.mem_singleton, List.not_mem_nil] <;>
    rintro x (rfl | rfl | rfl | h) <;>
    first
      | exact fun k => natChars_ne_kindChars _ k
      | exact fun k => sideChars_ne_kindChars _ k
      | cases h

theorem splitDash_joinDash_tokens :
    ∀ ts : List Str, ts ≠ [] → (∀ t ∈ ts, '-' ∉ t) → splitDash (joinDash ts) = ts := by
  intro ts
  induction ts with
  | nil => intro h; exact absurd rfl h
  | cons t ts ih =>
    intro _ hnd
    cases ts with
    | nil =>
      simp only [joinDash]
      exact splitDash_of_no_dash (hnd t (by simp))
    | cons u us =>
      rw [joinDash_cons t (u :: us) (by simp), splitDash_append_dash,
        splitDash_of_no_dash (hnd t (by simp)),
        ih (by simp) (fun x hx => hnd x (by simp [hx]))]
      rfl

theorem dash_not_mem_idxTokens (c : Component) : ∀ t ∈ idxTokens c, '-' ∉ t := by
  cases c <;> intro t ht <;>
    simp only [idxTokens, List.mem_cons, List.not_mem_nil, or_false] at ht <;>
    rcases ht with rfl | rfl | rfl <;>
    first
      | exact dash_not_mem_natChars _
      | exact dash_not_mem_sideChars _

theorem splitDash_componentId (rackId : Str) (c : Component) :
    splitDash (componentId rackId c) =
      splitDash rackId ++ kindChars (kindOf c) :: idxTokens c := by
  unfold componentId
  rw [splitDash_append_dash, splitDash_joinDash_tokens]
  · simp
  · intro t ht
    rcases List.mem_cons.mp ht with rfl | ht
    · exact dash_not_mem_kindChars _
    · exact dash_not_mem_idxTokens c t ht

theorem tokens_decomp_unique :
    ∀ (t1 : List Str) (k1 : CKind) (i1 : List Str) (t2 : List Str) (k2 : CKind) (i2 : List Str),
    (∀ x ∈ i1, ∀ k, x ≠ kindChars k) → (∀ x ∈ i2, ∀ k, x ≠ kindChars k) →
    t1 ++ kindChars k1 :: i1 = t2 ++ kindChars k2 :: i2 →
    t1 = t2 ∧ k1 = k2 ∧ i1 = i2 := by
  intro t1
  induction t1 with
  | nil =>
    intro k1 i1 t2 k2 i2 hi1 _ h
    cases t2 with
    | nil =>
      simp only [List.nil_append, List.cons.injEq] at h
      exact ⟨rfl, kindChars_injective h.1, h.2⟩
    | cons y t2' =>
      simp only [List.nil_append, List.cons_append, List.cons.injEq] at h
      exfalso
      have hmem : kindChars k2 ∈ i1 := by
        rw [h.2]
        exact List.mem_append_right _ (List.mem_cons_self _ _)
      exact hi1 _ hmem k2 rfl
  | cons x t1' ih =>
    intro k1 i1 t2 k2 i2 hi1 hi2 h
    cases t2 with
    | nil =>
      simp only [List.nil_append, List.cons_append, List.cons.injEq] at h
      exfalso
      have hmem : kindChars k1 ∈ i2 := by
        rw [← h.2]
        exact List.mem_append_right _ (List.mem_cons_self _ _)
      exact hi2 _ hmem k1 rfl
    | cons y t2' =>
      simp only [List.cons_append, List.cons.injEq] at h
      obtain ⟨ht, hk, hi⟩ := ih k1 i1 t2' k2 i2 hi1 hi2 h.2
      exact ⟨by rw [h.1, ht], hk, hi⟩

theorem component_eq_of_tokens {c1 c2 : Component}
    (hk : kindOf c1 = kindOf c2) (hi : idxTokens c1 = idxTokens c2) : c1 = c2 := by
  cases c1 <;> cases c2 <;> simp only [kindOf] at hk <;> try cases hk
  all_goals simp only [idxTokens, List.cons.injEq, and_true] at hi
  all_goals
    first
      | (obtain ⟨h1, h2, h3⟩ := hi
         first
           | rw [natChars_injective h1, natChars_injective h2, natChars_injective h3]
           | rw [natChars_injective h1, natChars_injective h2, sideChars_injective h3])
      | (obtain ⟨h1, h2⟩ := hi
         first
           | rw [natChars_injective h1, natChars_injective h2]
           | rw [natChars_injective h1, sideChars_injective h2])

/-- Full injectivity of the identity scheme: equal componentId strings force
equal rack ids and equal structural elements, for arbitrary rack ids
(including ids containing the `'-'` delimiter). -/
theorem componentId_inj_aux {r1 r2 : Str} {c1 c2 : Component}
    (h : componentId r1 c1 = componentId r2 c2) : r1 = r2 ∧ c1 = c2 := by
  have h' := congrArg splitDash h
  rw [splitDash_componentId, splitDash_componentId] at h'
  obtain ⟨ht, hk, hi⟩ := tokens_decomp_unique _ _ _ _ _ _
    (idxTokens_ne_kindChars c1) (idxTokens_ne_kindChars c2) h'
  exact ⟨splitDash_injective ht, component_eq_of_tokens hk hi⟩

/-- **C6**: the component identity function is pure — a function of the
rack id, the kind and the positional indices only, with no random or
time-based input — and injective: two componentId strings coincide exactly
when the rack ids and the structural elements (kind plus indices) coincide.
This holds for every rack id string, including the `rack-${'$'}{Date.now()}`
ids produced by addNewRack/duplicateRack, which contain the `'-'`
delimiter. -/
theorem componentId_pure_injective (r1 r2 : Str) (c1 c2 : Component) :
    componentId r1 c1 = componentId r2 c2 ↔ r1 = r2 ∧ c1 = c2 :=
  ⟨componentId_inj_aux, fun h => by rw [h.1, h.2]⟩

/-- The rack configuration object (`Config` interface of the source);
`number` fields are modelled as `ℚ` and the bay/level counts as `ℕ`. -/
structure Config where
  bays : Nat
  levels : Nat
  bayWidth : ℚ
  bayDepth : ℚ
  levelHeight : ℚ
  beamColor : Str
  frameColor : Str
  palletColor : Str
  crossbarColor : Str
  wireDeckColor : Str
  showWireDecks : Bool
  showPallets : Bool
  palletFill : ℚ
deriving DecidableEq

/-- `defaultConfig` from the source. -/
def defaultConfig : Config where
  bays := 3
  levels := 4
  bayWidth := 27 / 10
  bayDepth := 6 / 5
  levelHeight := 3 / 2
  beamColor := "#ff6b00".data
  frameColor := "#4a90d9".data
  palletColor := "#c4a574".data
  crossbarColor := "#ff9500".data
  wireDeckColor := "#666666".data
  showWireDecks := true
  showPallets := false
  palletFill := 70

/-- The pallet of a bay/level cell, emitted only when `showPallets` is on and
the cell's `Math.random()` draw (an arbitrary value in `[0,1)`, supplied as
`draw bay level`) satisfies `Math.random() * 100 < palletFill`. -/
def palletCell (cfg : Config) (draw : Nat → Nat → ℚ) (bay level : Nat) : List Component :=
  if cfg.showPallets = true ∧ draw bay level * 100 < cfg.palletFill then
    [Component.pallet bay level]
  else []

/-- The structural elements emitted by one pass of the rack build effect for
one rack, in loop order: for `bay = 0..bays` the two uprights (front, back),
the braces for `level = 0..levels-1` and the connectors for
`level = 0..levels`; then for `bay = 0..bays-1` and `level = 1..levels` the
two beams, three crossbars, the optional wire deck and the optional
(randomized) pallet. -/
def buildComponents (cfg : Config) (draw : Nat → Nat → ℚ) : List Component :=
  ((List.range (cfg.bays + 1)).flatMap (fun bay =>
      [Component.upright bay Side.front, Component.upright bay Side.back]
      ++ (List.range cfg.levels).map (fun level => Component.brace bay level)
      ++ (List.range (cfg.levels + 1)).map (fun level => Component.connector bay level)))
    ++ ((List.range cfg.bays).flatMap (fun bay =>
      (List.range cfg.levels).flatMap (fun lv =>
        [Component.beam bay (lv + 1) Side.front, Component.beam bay (lv + 1) Side.back]
        ++ (List.range 3).map (fun i => Component.crossbar bay (lv + 1) i)
        ++ (if cfg.showWireDecks = true then [Component.deck bay (lv + 1)] else [])
        ++ palletCell cfg draw bay (lv + 1))))

/-- Number of generated components of one kind. -/
def countKind (k : CKind) (l : List Component) : Nat :=
  l.countP (fun c => decide (kindOf c = k))

theorem countKind_append (k : CKind) (l1 l2 : List Component) :
    countKind k (l1 ++ l2) = countKind k l1 + countKind k l2 :=
  List.countP_append _ l1 l2

theorem countKind_flatMap (k : CKind) {α : Type} (l : List α) (f : α → List Component) :
    countKind k (l.flatMap f) = (l.map (fun a => countKind k (f a))).sum := by
  simp [countKind, List.flatMap_def, List.countP_flatten, Function.comp_def]

theorem countKind_map (k : CKind) {α : Type} (l : List α) (f : α → Component) :
    countKind k (l.map f) = l.countP (fun a => decide (kindOf (f a) = k)) := by
  simp [countKind, List.countP_map, Function.comp_def]

theorem countKind_cons (k : CKind) (c : Component) (l : List Component) :
    countKind k (c :: l) = countKind k l + (if kindOf c = k then 1 else 0) := by
  simp [countKind, List.countP_cons]

theorem countKind_nil (k : CKind) : countKind k [] = 0 := rfl

theorem count_upright (cfg : Config) (draw : Nat → Nat → ℚ) :
    countKind .upright (buildComponents cfg draw) = 2 * (cfg.bays + 1) := by
  simp [buildComponents, palletCell, countKind_append, countKind_flatMap, countKind_map,
    countKind_cons, countKind_nil, kindOf, List.map_const', apply_ite (countKind CKind.upright)]
  ring

theorem count_brace (cfg : Config) (draw : Nat → Nat → ℚ) :
    countKind .brace (buildComponents cfg draw) = (cfg.bays + 1) * cfg.levels := by
  simp [buildComponents, palletCell, countKind_append, countKind_flatMap, countKind_map,
    countKind_cons, countKind_nil, kindOf, List.map_const', apply_ite (countKind CKind.brace)]

theorem count_connector (cfg : Config) (draw : Nat → Nat → ℚ) :
    countKind .connector (buildComponents cfg draw) = (cfg.bays + 1) * (cfg.levels + 1) := by
  simp [buildComponents, palletCell, countKind_append, countKind_flatMap, countKind_map,
    countKind_cons, countKind_nil, kindOf, List.map_const', apply_ite (countKind CKind.connector)]

theorem count_beam (cfg : Config) (draw : Nat → Nat → ℚ) :
    countKind .beam (buildComponents cfg draw) = 2 * (cfg.bays * cfg.levels) := by
  simp [buildComponents, palletCell, countKind_append, countKind_flatMap, countKind_map,
    countKind_cons, countKind_nil, kindOf, List.map_const', apply_ite (countKind CKind.beam)]
  ring

theorem count_crossbar (cfg : Config) (draw : Nat → Nat → ℚ) :
    countKind .crossbar (buildComponents cfg draw) = 3 * (cfg.bays * cfg.levels) := by
  simp [buildComponents, palletCell, countKind_append, countKind_flatMap, countKind_map,
    countKind_cons, countKind_nil, kindOf, List.map_const', apply_ite (countKind CKind.crossbar)]
  ring

/-- **C1** (amended): one scene build of a rack with `bays = b` and
`levels = l` generates componentIds with per-kind cardinalities
uprights = `2(b+1)`, connectors = `(b+1)(l+1)`, beams = `2bl`,
braces = `(b+1)l`, crossbars = `3bl` (for every configuration and every
pallet random draw); in particular the default rack (bays=3, levels=4)
generates exactly 8 uprights, 24 beams, and 16 braces. -/
theorem build_cardinalities (cfg : Config) (draw : Nat → Nat → ℚ) :
    countKind .upright (buildComponents cfg draw) = 2 * (cfg.bays + 1) ∧
    countKind .connector (buildComponents cfg draw) = (cfg.bays + 1) * (cfg.levels + 1) ∧
    countKind .beam (buildComponents cfg draw) = 2 * (cfg.bays * cfg.levels) ∧
    countKind .brace (buildComponents cfg draw) = (cfg.bays + 1) * cfg.levels ∧
    countKind .crossbar (buildComponents cfg draw) = 3 * (cfg.bays * cfg.levels) ∧
    countKind .upright (buildComponents defaultConfig draw) = 8 ∧
    countKind .beam (buildComponents defaultConfig draw) = 24 ∧
    countKind .brace (buildComponents defaultConfig draw) = 16 := by
  refine ⟨count_upright cfg draw, count_connector cfg draw, count_beam cfg draw,
    count_brace cfg draw, count_crossbar cfg draw, ?_, ?_, ?_⟩
  · rw [count_upright defaultConfig draw]; decide
  · rw [count_beam defaultConfig draw]; decide
  · rw [count_brace defaultConfig draw]; decide

/-- **C1** counterexample: at the default rack (bays=3, levels=4) one scene
build emits 16 braces, not the claimed `b·l = 12` (the brace loop runs for
`bay = 0..bays` inclusive). -/
theorem build_cardinalities_counterexample :
    countKind .brace (buildComponents defaultConfig (fun _ _ => 0)) = 16 ∧
    countKind .brace (buildComponents defaultConfig (fun _ _ => 0)) ≠ 3 * 4 := by
  have h := count_brace defaultConfig (fun _ _ => 0)
  refine ⟨h.trans rfl, ?_⟩
  rw [h]
  decide

/-- Auxiliary congruence for flatMap. -/
theorem flatMap_congr_aux {α β : Type} (l : List α) (f g : α → List β)
    (h : ∀ a ∈ l, f a = g a) : l.flatMap f = l.flatMap g :=
  List.flatMap_congr h

theorem build_draw_irrelevant (cfg : Config) (d1 d2 : Nat → Nat → ℚ)
    (h1 : ∀ b l, 0 ≤ d1 b l ∧ d1 b l < 1) (h2 : ∀ b l, 0 ≤ d2 b l ∧ d2 b l < 1)
    (hcfg : cfg.showPallets = false ∨ cfg.palletFill ≤ 0 ∨ 100 ≤ cfg.palletFill) :
    buildComponents cfg d1 = buildComponents cfg d2 := by
  have hcell : ∀ b l, palletCell cfg d1 b l = palletCell cfg d2 b l := by
    intro b l
    unfold palletCell
    rcases hcfg with h | h | h
    · simp [h]
    · have c1 : ¬(d1 b l * 100 < cfg.palletFill) := by nlinarith [(h1 b l).1]
      have c2 : ¬(d2 b l * 100 < cfg.palletFill) := by nlinarith [(h2 b l).1]
      simp [c1, c2]
    · by_cases hs : cfg.showPallets = true
      · have c1 : d1 b l * 100 < cfg.palletFill := by nlinarith [(h1 b l).2]
        have c2 : d2 b l * 100 < cfg.palletFill := by nlinarith [(h2 b l).2]
        simp [hs, c1, c2]
      · simp [hs]
  unfold buildComponents
  congr 1
  apply flatMap_congr_aux
  intro bay _
  apply flatMap_congr_aux
  intro lv _
  rw [hcell bay (lv + 1)]

/-- **C2** (amended): re-deriving the component set twice from identical
`(rackId, config)` inputs yields an identical componentId list whenever
`showPallets` is off (or `palletFill` is at an extreme value 0/100, where
the Bernoulli draw is constant); with `showPallets` on and an intermediate
`palletFill`, the pallet ids depend on the per-rebuild `Math.random()`
draws, so only the non-pallet part is stable. -/
theorem build_deterministic_without_pallets (rackId : Str) (cfg : Config)
    (d1 d2 : Nat → Nat → ℚ)
    (h1 : ∀ b l, 0 ≤ d1 b l ∧ d1 b l < 1) (h2 : ∀ b l, 0 ≤ d2 b l ∧ d2 b l < 1)
    (hcfg : cfg.showPallets = false ∨ cfg.palletFill ≤ 0 ∨ 100 ≤ cfg.palletFill) :
    (buildComponents cfg d1).map (componentId rackId)
      = (buildComponents cfg d2).map (componentId rackId) := by
  rw [build_draw_irrelevant cfg d1 d2 h1 h2 hcfg]

/-- Witness for the amended C2: the default configuration (showPallets off)
rebuilt with two different draw streams produces the same componentId list. -/
theorem build_deterministic_without_pallets_witness :
    (buildComponents defaultConfig (fun _ _ => 0)).map (componentId ("rack-1".data))
      = (buildComponents defaultConfig (fun _ _ => 1 / 2)).map (componentId ("rack-1".data)) :=
  build_deterministic_without_pallets ("rack-1".data) defaultConfig _ _
    (fun _ _ => ⟨le_refl 0, by norm_num⟩)
    (fun _ _ => ⟨by norm_num, by norm_num⟩)
    (Or.inl rfl)

/-- Small pallet-enabled configuration used to exhibit the randomized pallet
draw. -/
def cfgPallets : Config :=
  { defaultConfig with bays := 1, levels := 1, showPallets := true, palletFill := 50 }

theorem pallet_mem_low_draw :
    Component.pallet 0 1 ∈ buildComponents cfgPallets (fun _ _ => 0) := by
  unfold buildComponents
  refine List.mem_append_right _ ?_
  refine List.mem_flatMap.mpr ⟨0, by decide, ?_⟩
  refine List.mem_flatMap.mpr ⟨0, by decide, ?_⟩
  refine List.mem_append_right _ ?_
  norm_num [palletCell, cfgPallets, defaultConfig]

theorem pallet_not_mem_high_draw :
    Component.pallet 0 1 ∉ buildComponents cfgPallets (fun _ _ => (9 : ℚ) / 10) := by
  intro h
  norm_num [buildComponents, palletCell, cfgPallets, defaultConfig, List.mem_append,
    List.mem_flatMap] at h
  simp at h

/-- **C2** counterexample: with `showPallets` enabled and `palletFill = 50`,
two scene rebuilds from the identical `(rackId, config)` but different
`Math.random()` draws yield different componentId sets — the pallet id is
generated by the first rebuild and absent from the second. -/
theorem build_random_counterexample :
    componentId ("rack-1".data) (Component.pallet 0 1)
      ∈ (buildComponents cfgPallets (fun _ _ => 0)).map (componentId ("rack-1".data)) ∧
    componentId ("rack-1".data) (Component.pallet 0 1)
      ∉ (buildComponents cfgPallets (fun _ _ => (9 : ℚ) / 10)).map
          (componentId ("rack-1".data)) := by
  constructor
  · exact List.mem_map_of_mem _ pallet_mem_low_draw
  · intro hmem
    obtain ⟨c, hc, hid⟩ := List.mem_map.mp hmem
    obtain ⟨-, rfl⟩ := componentId_inj_aux hid
    exact pallet_not_mem_high_draw hc

/-- `MaintenanceRecord` of the source; `timestamp` is modelled as epoch
milliseconds (the value `new Date(r.timestamp).getTime()` the source
derives from the stored ISO-8601 string). -/
structure MaintenanceRecord where
  id : Int
  type : Str
  description : Str
  technician : Str
  status : Str
  timestamp : Int
  componentId : Str
  images : List Str
deriving DecidableEq

/-- The `maintenanceRecords` object: a JavaScript record keyed by
componentId, modelled as an association list in insertion order. -/
abbrev RecordsMap := List (Str × List MaintenanceRecord)

/-- Property lookup `maintenanceRecords[componentId]` (undefined ↦ `none`). -/
def lookupEntries (m : RecordsMap) (cid : Str) : Option (List MaintenanceRecord) :=
  (m.find? (fun e => decide (e.1 = cid))).map (fun e => e.2)

/-- `records.filter(r => r.type === 'inspection' && r.status === 'completed')`. -/
def completedInspections (rs : List MaintenanceRecord) : List MaintenanceRecord :=
  rs.filter (fun r => decide (r.type = "inspection".data ∧ r.status = "completed".data))

/-- Timestamp of the head of the filtered list sorted descending by
timestamp — i.e. the maximal timestamp of a completed inspection (0 if
none; the source never reads this case). -/
def latestInspectionTs (rs : List MaintenanceRecord) : Int :=
  match completedInspections rs with
  | [] => 0
  | r :: rest => (rest.map (fun x => x.timestamp)).foldl max r.timestamp

/-- `getDaysSinceInspection` of the source:
999 when the component has no records or no completed inspections, else
`Math.floor((now - lastInspection.timestamp) / 86400000)`. -/
def getDaysSinceInspection (now : Int) (m : RecordsMap) (cid : Str) : Int :=
  match lookupEntries m cid with
  | none => 999
  | some rs =>
    if rs.isEmpty then 999
    else if (completedInspections rs).isEmpty then 999
    else Int.fdiv (now - latestInspectionTs rs) 86400000

def greenColor : Str := "#10b981".data

def yellowColor : Str := "#f59e0b".data

def orangeColor : Str := "#f97316".data

def redColor : Str := "#ef4444".data

/-- `getHeatmapColor` of the source. -/
def getHeatmapColor (now : Int) (m : RecordsMap) (cid : Str) : Str :=
  let days := getDaysSinceInspection now m cid
  if days ≤ 7 then greenColor
  else if days ≤ 30 then yellowColor
  else if days ≤ 90 then orangeColor
  else redColor

/-- The `componentHealth` object: componentId → health value string. -/
abbrev HealthMap := List (Str × Str)

def lookupHealth (hm : HealthMap) (cid : Str) : Option Str :=
  (hm.find? (fun e => decide (e.1 = cid))).map (fun e => e.2)

/-- The `healthStatuses` value/color table of the source. -/
def healthStatuses : List (Str × Str) :=
  [("good".data, "#10b981".data), ("fair".data, "#f59e0b".data),
   ("poor".data, "#f97316".data), ("critical".data, "#ef4444".data)]

/-- `getHealthColor`: find the entry whose value equals the component's
health, defaulting to `'#888888'`. -/
def getHealthColor (hm : HealthMap) (cid : Str) : Str :=
  match healthStatuses.find? (fun h => decide (some h.1 = lookupHealth hm cid)) with
  | some h => h.2
  | none => "#888888".data

/-- A JavaScript `string | number` color value. -/
inductive ColorVal
  | str (s : Str)
  | num (n : Nat)
deriving DecidableEq

structure Material where
  color : ColorVal
  emissive : ColorVal
  emissiveIntensity : ℚ

/-- JavaScript truthiness of `componentHealth[componentId]` (undefined and
the empty string are falsy). -/
def optStrTruthy : Option Str → Bool
  | none => false
  | some s => !s.isEmpty

/-- `createMaterial` of the source: health branch first (health view mode
and a truthy health entry), then heatmap mode, then the normal-mode
selected / has-records / plain emissive resolution. -/
def createMaterial (viewMode : Str) (hm : HealthMap) (now : Int) (m : RecordsMap)
    (baseColor : Str) (cid : Str) (isSelected hasRecords : Bool) : Material :=
  if viewMode = "health".data ∧ optStrTruthy (lookupHealth hm cid) = true then
    { color := .str (getHealthColor hm cid)
      emissive := .str (getHealthColor hm cid)
      emissiveIntensity := 3 / 10 }
  else if viewMode = "heatmap".data then
    { color := .str (getHeatmapColor now m cid)
      emissive := .str (getHeatmapColor now m cid)
      emissiveIntensity := 3 / 10 }
  else if isSelected then
    { color := .str baseColor, emissive := .num 0x00ff88, emissiveIntensity := 1 / 2 }
  else if hasRecords then
    { color := .str baseColor, emissive := .num 0xff6600, emissiveIntensity := 1 / 5 }
  else
    { color := .str baseColor, emissive := .num 0x000000, emissiveIntensity := 0 }

theorem fdiv_day_cancel (d : Int) : Int.fdiv (d * 86400000) 86400000 = d := by
  rw [Int.mul_fdiv_cancel]
  norm_num

/-- **C3**: heatmap tier boundaries: a component whose latest completed
inspection is exactly 7 / 30 / 90 / 91 days old resolves to the green /
yellow / orange / red tier respectively, and a component with zero
completed inspection records (or no records at all) resolves to red. -/
theorem heatmap_tier_boundaries (now : Int) (m : RecordsMap) (cid : Str)
    (rs : List MaintenanceRecord) (hlk : lookupEntries m cid = some rs) :
    (completedInspections rs ≠ [] →
      (latestInspectionTs rs = now - 7 * 86400000 →
        getHeatmapColor now m cid = greenColor) ∧
      (latestInspectionTs rs = now - 30 * 86400000 →
        getHeatmapColor now m cid = yellowColor) ∧
      (latestInspectionTs rs = now - 90 * 86400000 →
        getHeatmapColor now m cid = orangeColor) ∧
      (latestInspectionTs rs = now - 91 * 86400000 →
        getHeatmapColor now m cid = redColor)) ∧
    (completedInspections rs = [] → getHeatmapColor now m cid = redColor) ∧
    (∀ cid2, lookupEntries m cid2 = none → getHeatmapColor now m cid2 = redColor) := by
  refine ⟨?_, ?_, ?_⟩
  · intro hne
    have hrs : ¬rs.isEmpty := by
      cases rs with
      | nil => exact absurd (by simp [completedInspections]) hne
      | cons a l => simp
    have hci : ¬(completedInspections rs).isEmpty := by
      simpa [List.isEmpty_iff] using hne
    have key : ∀ d : Int, Int.fdiv (now - (now - d * 86400000)) 86400000 = d := by
      intro d
      rw [show now - (now - d * 86400000) = d * 86400000 by ring, fdiv_day_cancel]
    refine ⟨?_, ?_, ?_, ?_⟩ <;> intro hts <;>
      simp only [getHeatmapColor, getDaysSinceInspection, hlk, hrs, hci, if_false,
        Bool.false_eq_true, hts, key] <;>
      norm_num [greenColor, yellowColor, orangeColor, redColor]
  · intro hempty
    have hci : (completedInspections rs).isEmpty := by simp [hempty]
    by_cases hrs : rs.isEmpty <;>
      simp [getHeatmapColor, getDaysSinceInspection, hlk, hrs, hci]
  · intro cid2 hnone
    simp [getHeatmapColor, getDaysSinceInspection, hnone]

/-- A concrete completed inspection record at a given timestamp. -/
def mkInspection (ts : Int) : MaintenanceRecord where
  id := 1
  type := "inspection".data
  description := "ok".data
  technician := []
  status := "completed".data
  timestamp := ts
  componentId := "c".data
  images := []

/-- Witness for C3 at concrete inputs: one record exactly 7/30/90/91 days
old hits green/yellow/orange/red, and an empty record list hits red. -/
theorem heatmap_tier_boundaries_witness :
    getHeatmapColor 1700000000000
      [("c".data, [mkInspection (1700000000000 - 7 * 86400000)])] "c".data = greenColor ∧
    getHeatmapColor 1700000000000
      [("c".data, [mkInspection (1700000000000 - 30 * 86400000)])] "c".data = yellowColor ∧
    getHeatmapColor 1700000000000
      [("c".data, [mkInspection (1700000000000 - 90 * 86400000)])] "c".data = orangeColor ∧
    getHeatmapColor 1700000000000
      [("c".data, [mkInspection (1700000000000 - 91 * 86400000)])] "c".data = redColor ∧
    getHeatmapColor 1700000000000 [("c".data, [])] "c".data = redColor ∧
    getHeatmapColor 1700000000000 [("c".data, [])] "d".data = redColor :=
  ⟨((heatmap_tier_boundaries 1700000000000
        [("c".data, [mkInspection (1700000000000 - 7 * 86400000)])] "c".data
        [mkInspection (1700000000000 - 7 * 86400000)] (by decide)).1
      (by decide)).1 (by decide),
   ((heatmap_tier_boundaries 1700000000000
        [("c".data, [mkInspection (1700000000000 - 30 * 86400000)])] "c".data
        [mkInspection (1700000000000 - 30 * 86400000)] (by decide)).1
      (by decide)).2.1 (by decide),
   ((heatmap_tier_boundaries 1700000000000
        [("c".data, [mkInspection (1700000000000 - 90 * 86400000)])] "c".data
        [mkInspection (1700000000000 - 90 * 86400000)] (by decide)).1
      (by decide)).2.2.1 (by decide),
   ((heatmap_tier_boundaries 1700000000000
        [("c".data, [mkInspection (1700000000000 - 91 * 86400000)])] "c".data
        [mkInspection (1700000000000 - 91 * 86400000)] (by decide)).1
      (by decide)).2.2.2 (by decide),
   (heatmap_tier_boundaries 1700000000000
        [("c".data, [])] "c".data [] (by decide)).2.1 (by decide),
   (heatmap_tier_boundaries 1700000000000
        [("c".data, [])] "c".data [] (by decide)).2.2 ("d".data) (by decide)⟩

/-- **C4**: for a component with a (truthy) health entry, heatmap view mode
resolves the material color by the days-since-inspection rule, the
health-status color is applied exactly in health view mode, and normal view
mode leaves the base kind color (first-match-wins order of
`createMaterial`). -/
theorem view_mode_precedence (hm : HealthMap) (now : Int) (m : RecordsMap)
    (baseColor : Str) (cid : Str) (isSelected hasRecords : Bool) (v : Str)
    (hv : lookupHealth hm cid = some v) (hne : v ≠ []) :
    (createMaterial "heatmap".data hm now m baseColor cid isSelected hasRecords).color
        = ColorVal.str (getHeatmapColor now m cid) ∧
    (createMaterial "health".data hm now m baseColor cid isSelected hasRecords).color
        = ColorVal.str (getHealthColor hm cid) ∧
    (createMaterial "normal".data hm now m baseColor cid isSelected hasRecords).color
        = ColorVal.str baseColor := by
  have htruthy : optStrTruthy (lookupHealth hm cid) = true := by
    rw [hv]
    simpa [optStrTruthy, List.isEmpty_iff] using hne
  refine ⟨?_, ?_, ?_⟩
  · have hvm : ¬(("heatmap".data : Str) = "health".data) := by decide
    simp [createMaterial, hvm]
  · simp [createMaterial, htruthy]
  · have hvm : ¬(("normal".data : Str) = "health".data) := by decide
    have hvm2 : ¬(("normal".data : Str) = "heatmap".data) := by decide
    cases isSelected <;> cases hasRecords <;> simp [createMaterial, hvm, hvm2]

/-- The `userData` fields that `handleClick` inspects on an intersected
render object. -/
structure UserData where
  componentId : Option Str
  isDecoration : Option Bool
  isIndicator : Bool
  parentId : Option Str
  isRackMarker : Bool
  rackId : Option Str
deriving DecidableEq

/-- The kinds of render object the rack build effect registers, tagged by
their role (used to state what a pick should resolve to):
`structural` covers every mesh given a full componentId userData — uprights,
braces, connectors, beams, crossbars, pallets, decks and the first (w = 0)
wire of a wire deck; `deckDecoration` covers the remaining deck wires,
cross wires and frame bars (componentId of the deck, `isDecoration: false`);
`loadBox` is the decorative box above a pallet (`isDecoration: true` only);
`indicator` is an orange marker sphere (`isIndicator: true` and the parent
componentId). -/
inductive SceneObj
  | structural (rackId : Str) (c : Component)
  | deckDecoration (rackId : Str) (bay level : Nat)
  | loadBox
  | indicator (rackId : Str) (parent : Component)
deriving DecidableEq

/-- The userData each object class carries in the source. -/
def userDataOf : SceneObj → UserData
  | .structural r c =>
    { componentId := some (componentId r c), isDecoration := none,
      isIndicator := false, parentId := none, isRackMarker := false, rackId := some r }
  | .deckDecoration r bay level =>
    { componentId := some (componentId r (.deck bay level)), isDecoration := some false,
      isIndicator := false, parentId := none, isRackMarker := false, rackId := some r }
  | .loadBox =>
    { componentId := none, isDecoration := some true,
      isIndicator := false, parentId := none, isRackMarker := false, rackId := none }
  | .indicator r p =>
    { componentId := none, isDecoration := none,
      isIndicator := true, parentId := some (componentId r p), isRackMarker := false,
      rackId := none }

/-- Selection state touched by `handleClick`. -/
structure ClickState where
  selectedComponent : Option Str
  selectedRackId : Str
  activeTab : Str
deriving DecidableEq

/-- The `for (const intersect of intersects)` loop of `handleClick`, applied
to the userData of the intersections in nearest-first order (three.js
returns intersections sorted by ascending ray distance): rack markers first,
then any object with a truthy componentId not flagged `isDecoration`, then
indicator markers resolving to their parent; a non-matching object falls
through to the next intersection. -/
def clickLoop : List UserData → ClickState → ClickState
  | [], s => s
  | ud :: rest, s =>
    if ud.isRackMarker = true ∧ optStrTruthy ud.rackId = true then
      { s with selectedRackId := ud.rackId.getD [], activeTab := "home".data }
    else if optStrTruthy ud.componentId = true ∧ ¬(ud.isDecoration.getD false = true) then
      { selectedComponent := some (ud.componentId.getD [])
        selectedRackId := if optStrTruthy ud.rackId = true then ud.rackId.getD []
          else s.selectedRackId
        activeTab := "component".data }
    else if ud.isIndicator = true ∧ optStrTruthy ud.parentId = true then
      { s with selectedComponent := some (ud.parentId.getD [])
               activeTab := "component".data }
    else clickLoop rest s

/-- `handleClick`: a click during a drag gesture is ignored; otherwise the
intersection loop runs. -/
def handleClick (isDragging : Bool) (hits : List UserData) (s : ClickState) : ClickState :=
  if isDragging then s else clickLoop hits s

/-- What one intersected object resolves to in the source's loop: its
componentId (also for decorative deck members, which carry the deck's id and
`isDecoration: false`), the parent id for indicators, nothing for load
boxes. -/
def resolveHit : SceneObj → Option Str
  | .structural r c => some (componentId r c)
  | .deckDecoration r bay level => some (componentId r (.deck bay level))
  | .loadBox => none
  | .indicator r p => some (componentId r p)

theorem componentId_ne_nil (r : Str) (c : Component) : componentId r c ≠ [] := by
  unfold componentId
  cases r <;> simp

theorem optStrTruthy_componentId (r : Str) (c : Component) :
    optStrTruthy (some (componentId r c)) = true := by
  simp [optStrTruthy, List.isEmpty_iff, componentId_ne_nil r c]

/-- **C5** (amended): `pick` returns, for the nearest-first intersection
list, the componentId of the first object that carries a truthy componentId
and is not flagged `isDecoration` — this includes the decorative wire-deck
members, which carry the deck's componentId with `isDecoration: false` and
therefore resolve to the deck (they are not skipped); decorative load boxes
(no componentId, `isDecoration: true`) are skipped; an indicator marker
resolves to its parent componentId; and if nothing matches the selection is
untouched. -/
theorem pick_resolution (hits : List SceneObj) (s : ClickState) :
    (handleClick false (hits.map userDataOf) s).selectedComponent
      = match hits.findSome? resolveHit with
        | some cid => some cid
        | none => s.selectedComponent := by
  unfold handleClick
  rw [if_neg (by simp)]
  induction hits with
  | nil => simp [clickLoop, List.findSome? ]
  | cons obj rest ih =>
    cases obj with
    | structural r c =>
      simp [clickLoop, userDataOf, List.findSome?, resolveHit, optStrTruthy_componentId r c]
    | deckDecoration r bay level =>
      simp [clickLoop, userDataOf, List.findSome?, resolveHit,
        optStrTruthy_componentId r (.deck bay level)]
    | loadBox =>
      simpa [clickLoop, userDataOf, List.findSome?, resolveHit, optStrTruthy] using ih
    | indicator r p =>
      simp [clickLoop, userDataOf, List.findSome?, resolveHit, optStrTruthy,
        componentId_ne_nil r p]

/-- The pick behavior asserted by the claim: the nearest addressable object,
with decorative wire-deck strands and load boxes skipped and indicators
resolving to their parent. -/
def claimPick : List SceneObj → Option Str
  | [] => none
  | .structural r c :: _ => some (componentId r c)
  | .deckDecoration _ _ _ :: rest => claimPick rest
  | .loadBox :: rest => claimPick rest
  | .indicator r p :: _ => some (componentId r p)

/-- **C5** counterexample: a click whose nearest intersection is a
decorative wire-deck member over a beam resolves, in the source, to the
deck's componentId (the member carries `isDecoration: false`), whereas the
claimed skipping behavior would return the beam's componentId — and the two
ids differ. -/
theorem pick_skips_strands_counterexample :
    (handleClick false
        ([SceneObj.deckDecoration ("rack-1".data) 0 1,
          SceneObj.structural ("rack-1".data) (.beam 0 1 Side.front)].map userDataOf)
        { selectedComponent := none, selectedRackId := "rack-1".data,
          activeTab := "home".data }).selectedComponent
      = some (componentId ("rack-1".data) (.deck 0 1)) ∧
    claimPick [SceneObj.deckDecoration ("rack-1".data) 0 1,
          SceneObj.structural ("rack-1".data) (.beam 0 1 Side.front)]
      = some (componentId ("rack-1".data) (.beam 0 1 Side.front)) ∧
    componentId ("rack-1".data) (.deck 0 1)
      ≠ componentId ("rack-1".data) (.beam 0 1 Side.front) := by
  decide

/-- The condition under which one intersected object triggers a selection
branch of `handleClick`. -/
def udMatches (ud : UserData) : Prop :=
  (ud.isRackMarker = true ∧ optStrTruthy ud.rackId = true) ∨
  (optStrTruthy ud.componentId = true ∧ ¬(ud.isDecoration.getD false = true)) ∨
  (ud.isIndicator = true ∧ optStrTruthy ud.parentId = true)

instance (ud : UserData) : Decidable (udMatches ud) := by
  unfold udMatches
  infer_instance

/-- **C8**: a click whose ray intersects no addressable object (none of the
intersections matches any branch of the loop) changes nothing:
`selectedComponent`, `selectedRackId` and the active tab are exactly what
they were before. -/
theorem click_noop_without_addressable (hits : List UserData) (s : ClickState)
    (h : ∀ ud ∈ hits, ¬udMatches ud) :
    handleClick false hits s = s := by
  unfold handleClick
  rw [if_neg (by simp)]
  induction hits with
  | nil => rfl
  | cons ud rest ih =>
    have hud := h ud (by simp)
    unfold udMatches at hud
    push_neg at hud
    rw [clickLoop, if_neg ?hc1, if_neg ?hc2, if_neg ?hc3]
    · exact ih (fun x hx => h x (by simp [hx]))
    case hc1 => exact fun hc => hud.1 hc.1 hc.2
    case hc2 => exact fun hc => hc.2 (hud.2.1 hc.1)
    case hc3 => exact fun hc => hud.2.2 hc.1 hc.2

/-- Witness for C8: a click on empty space (no intersections) and a click
intersecting only a decorative load box both leave the selection state
unchanged. -/
theorem click_noop_without_addressable_witness :
    handleClick false []
      { selectedComponent := none, selectedRackId := "rack-1".data,
        activeTab := "home".data }
      = { selectedComponent := none, selectedRackId := "rack-1".data,
          activeTab := "home".data } ∧
    handleClick false [userDataOf SceneObj.loadBox]
      { selectedComponent := some ("x".data), selectedRackId := "rack-1".data,
        activeTab := "component".data }
      = { selectedComponent := some ("x".data), selectedRackId := "rack-1".data,
          activeTab := "component".data } :=
  ⟨click_noop_without_addressable [] _ (by decide),
   click_noop_without_addressable [userDataOf SceneObj.loadBox] _ (by decide)⟩

/-- Witness for C4 at a concrete state: a component with health `good`
gets the heatmap color in heatmap mode, the health color in health mode,
and the base color in normal mode. -/
theorem view_mode_precedence_witness :
    (createMaterial "heatmap".data [("c".data, "good".data)] 0 []
        "#4a90d9".data "c".data false false).color
      = ColorVal.str (getHeatmapColor 0 [] "c".data) ∧
    (createMaterial "health".data [("c".data, "good".data)] 0 []
        "#4a90d9".data "c".data false false).color
      = ColorVal.str (getHealthColor [("c".data, "good".data)] "c".data) ∧
    (createMaterial "normal".data [("c".data, "good".data)] 0 []
        "#4a90d9".data "c".data false false).color
      = ColorVal.str "#4a90d9".data :=
  view_mode_precedence [("c".data, "good".data)] 0 [] "#4a90d9".data "c".data
    false false "good".data (by decide) (by decide)

/-- `{...maintenanceRecords, [cid]: v}`: JavaScript object spread keeps the
original key order, updating the key in place if present and appending it
otherwise. -/
def setEntry (m : RecordsMap) (cid : Str) (v : List MaintenanceRecord) : RecordsMap :=
  if m.any (fun e => decide (e.1 = cid)) then
    m.map (fun e => if e.1 = cid then (cid, v) else e)
  else m ++ [(cid, v)]

/-- `addMaintenanceRecord` (form state and image upload aside): append the
newly constructed record to the selected component's list
(`[...(maintenanceRecords[selectedComponent] || []), record]`). -/
def addMaintenanceRecord (m : RecordsMap) (cid : Str) (rec : MaintenanceRecord) : RecordsMap :=
  setEntry m cid ((lookupEntries m cid).getD [] ++ [rec])

/-- `deleteRecord`: keep only the records whose id differs
(`maintenanceRecords[componentId].filter(r => r.id !== recordId)`; the
source indexes without a fallback — an absent key would throw — modelled
with the `[]` default). -/
def deleteRecord (m : RecordsMap) (cid : Str) (recId : Int) : RecordsMap :=
  setEntry m cid (((lookupEntries m cid).getD []).filter (fun r => decide (r.id ≠ recId)))

/-- `record.images.splice(imageIndex + 1, 0, newImagePath)`: insert the new
path immediately after position `i`. -/
def spliceAfter (images : List Str) (i : Nat) (newPath : Str) : List Str :=
  images.take (i + 1) ++ newPath :: images.drop (i + 1)

/-- Inner loop of `handleSaveAnnotation` over one component's record list:
the first record whose images contain the original path gets the annotated
path spliced in right after it (`break` exits after that record), the rest
are left alone. -/
def annotateRecords (originalPath newPath : Str) :
    List MaintenanceRecord → List MaintenanceRecord
  | [] => []
  | r :: rest =>
    if originalPath ∈ r.images then
      { r with images := spliceAfter r.images (r.images.indexOf originalPath) newPath } :: rest
    else r :: annotateRecords originalPath newPath rest

/-- `handleSaveAnnotation` (upload plumbing aside): for every componentId
entry, splice the annotated image into the first record containing the
original image (the `break` only exits the inner loop, so every component's
list is visited). -/
def handleSaveAnnotationOp (m : RecordsMap) (originalPath newPath : Str) : RecordsMap :=
  m.map (fun e => (e.1, annotateRecords originalPath newPath e.2))

/-- Forget the images of a record (every other field kept). -/
def stripImages (r : MaintenanceRecord) : MaintenanceRecord :=
  { r with images := [] }

theorem lookupEntries_nil (cid : Str) : lookupEntries [] cid = none := rfl

theorem lookupEntries_cons (e : Str × List MaintenanceRecord) (m : RecordsMap) (cid : Str) :
    lookupEntries (e :: m) cid = if e.1 = cid then some e.2 else lookupEntries m cid := by
  unfold lookupEntries
  rw [List.find?_cons]
  by_cases h : e.1 = cid <;> simp [h]

theorem lookupEntries_map_update_self (m : RecordsMap) (cid : Str)
    (v : List MaintenanceRecord)
    (hany : (m.any fun e => decide (e.1 = cid)) = true) :
    lookupEntries (m.map (fun e => if e.1 = cid then (cid, v) else e)) cid = some v := by
  induction m with
  | nil => simp at hany
  | cons e m ih =>
    rw [List.map_cons, lookupEntries_cons]
    by_cases he : e.1 = cid
    · simp [he]
    · have hany' : (m.any fun e => decide (e.1 = cid)) = true := by
        simpa [List.any_cons, he] using hany
      simp [he, ih hany']

theorem lookupEntries_map_update_ne (m : RecordsMap) (cid cid0 : Str)
    (v : List MaintenanceRecord) (h0 : cid0 ≠ cid) :
    lookupEntries (m.map (fun e => if e.1 = cid then (cid, v) else e)) cid0
      = lookupEntries m cid0 := by
  induction m with
  | nil => rfl
  | cons f m ih =>
    rw [List.map_cons, lookupEntries_cons, lookupEntries_cons]
    by_cases hf : f.1 = cid
    · rw [if_pos hf]
      have h1 : ¬(cid = cid0) := fun hc => h0 hc.symm
      have h2 : ¬(f.1 = cid0) := by rw [hf]; exact h1
      simp [h1, h2, ih]
    · rw [if_neg hf]
      by_cases h3 : f.1 = cid0
      · simp [h3]
      · simp [h3, ih]

theorem lookupEntries_append_single_ne (m : RecordsMap) (cid cid0 : Str)
    (v : List MaintenanceRecord) (h : ¬(cid = cid0)) :
    lookupEntries (m ++ [(cid, v)]) cid0 = lookupEntries m cid0 := by
  induction m with
  | nil => simp [lookupEntries_cons, lookupEntries_nil, h]
  | cons e m ih =>
    rw [List.cons_append, lookupEntries_cons, lookupEntries_cons, ih]

theorem lookupEntries_append_single_self (m : RecordsMap) (cid : Str)
    (v : List MaintenanceRecord)
    (hnone : ¬((m.any fun e => decide (e.1 = cid)) = true)) :
    lookupEntries (m ++ [(cid, v)]) cid = some v := by
  induction m with
  | nil => simp [lookupEntries_cons]
  | cons e m ih =>
    have he : ¬(e.1 = cid) := fun hc => hnone (by simp [List.any_cons, hc])
    have hm : ¬((m.any fun e => decide (e.1 = cid)) = true) := fun hc =>
      hnone (by simp [List.any_cons, hc])
    rw [List.cons_append, lookupEntries_cons, if_neg he, ih hm]

theorem lookupEntries_setEntry (m : RecordsMap) (cid cid0 : Str)
    (v : List MaintenanceRecord) :
    lookupEntries (setEntry m cid v) cid0
      = if cid0 = cid then some v else lookupEntries m cid0 := by
  unfold setEntry
  by_cases h0 : cid0 = cid
  · subst h0
    rw [if_pos rfl]
    split
    · exact lookupEntries_map_update_self m cid0 v (by assumption)
    · exact lookupEntries_append_single_self m cid0 v (by assumption)
  · rw [if_neg h0]
    split
    · exact lookupEntries_map_update_ne m cid cid0 v h0
    · exact lookupEntries_append_single_ne m cid cid0 v (fun hc => h0 hc.symm)

theorem annotateRecords_stripImages (o n : Str) (rs : List MaintenanceRecord) :
    (annotateRecords o n rs).map stripImages = rs.map stripImages := by
  induction rs with
  | nil => rfl
  | cons r rest ih =>
    unfold annotateRecords
    split
    · simp [stripImages]
    · simp only [List.map_cons, ih]

theorem lookupEntries_handleSaveAnnotationOp (m : RecordsMap) (o n cid0 : Str) :
    lookupEntries (handleSaveAnnotationOp m o n) cid0
      = (lookupEntries m cid0).map (annotateRecords o n) := by
  induction m with
  | nil => rfl
  | cons e m ih =>
    unfold handleSaveAnnotationOp at ih ⊢
    rw [List.map_cons, lookupEntries_cons, lookupEntries_cons]
    by_cases h : e.1 = cid0 <;> simp [h, ih]

/-- **C9** (amended): the record collection supports append (add record),
remove-by-id (delete record), and the annotation splice; the first two
never touch any other stored record (the old list is kept as a prefix on
append, and removal filters whole records), and the annotation operation
changes at most the `images` list of a record — `type`, `description`,
`technician`, `status`, `timestamp`, `id` and `componentId` of every stored
record survive every operation unchanged. -/
theorem records_mutation_discipline (m : RecordsMap) (cid cid0 : Str)
    (rec : MaintenanceRecord) (recId : Int) (o n : Str) :
    (lookupEntries (addMaintenanceRecord m cid rec) cid0
        = if cid0 = cid then some ((lookupEntries m cid).getD [] ++ [rec])
          else lookupEntries m cid0) ∧
    (lookupEntries (deleteRecord m cid recId) cid0
        = if cid0 = cid
          then some (((lookupEntries m cid).getD []).filter (fun r => decide (r.id ≠ recId)))
          else lookupEntries m cid0) ∧
    ((lookupEntries (handleSaveAnnotationOp m o n) cid0).map (List.map stripImages)
        = (lookupEntries m cid0).map (List.map stripImages)) := by
  refine ⟨lookupEntries_setEntry m cid cid0 _, lookupEntries_setEntry m cid cid0 _, ?_⟩
  rw [lookupEntries_handleSaveAnnotationOp]
  cases lookupEntries m cid0 with
  | none => rfl
  | some rs => simp [annotateRecords_stripImages]

/-- A stored record with one image, used to exhibit the in-place update. -/
def annotRec : MaintenanceRecord where
  id := 1
  type := "repair".data
  description := "d".data
  technician := []
  status := "completed".data
  timestamp := 0
  componentId := "c".data
  images := ["a".data]

/-- **C9** counterexample: `handleSaveAnnotation` mutates a stored record in
place — after annotating image `a`, the record stored under `c` has images
`[a, b]`, no longer its original `images` field. -/
theorem record_updated_in_place_counterexample :
    lookupEntries (handleSaveAnnotationOp [("c".data, [annotRec])] ("a".data) ("b".data))
        ("c".data)
      = some [{ annotRec with images := ["a".data, "b".data] }] ∧
    ({ annotRec with images := ["a".data, "b".data] } : MaintenanceRecord).images
      ≠ annotRec.images := by
  constructor
  · decide
  · decide

/-- `Rack` of the source (`position` flattened to `posX`/`posZ`). -/
structure Rack where
  id : Str
  name : Str
  posX : ℚ
  posZ : ℚ
  rotation : ℚ
  config : Config
deriving DecidableEq

/-- `createNewRack` of the source. -/
def createNewRack (id name : Str) (x z : ℚ) : Rack where
  id := id
  name := name
  posX := x
  posZ := z
  rotation := 0
  config := defaultConfig

/-- The application state the rack management functions touch. -/
structure AppState where
  racks : List Rack
  selectedRackId : Str
  maintenanceRecords : RecordsMap
  componentHealth : HealthMap
deriving DecidableEq

/-- `addNewRack`: id from the clock (`rack-${'$'}{Date.now()}`, the clock value
supplied as `now`), name from the rack count, x-position to the right of
the widest existing extent, appended and selected. -/
def addNewRack (now : Nat) (s : AppState) : AppState :=
  let newId : Str := "rack-".data ++ natChars now
  let maxX : ℚ := s.racks.foldl
    (fun mx r => max mx (r.posX + (r.config.bays : ℚ) * r.config.bayWidth)) 0
  let newRack := createNewRack newId ("Rack ".data ++ natChars (s.racks.length + 1))
    (maxX + 3) 0
  { s with racks := s.racks ++ [newRack], selectedRackId := newId }

/-- `duplicateRack`: copy the found rack under a fresh clock id, shifted
5 to the right, appended and selected; missing source id is a no-op. -/
def duplicateRack (rackId : Str) (now : Nat) (s : AppState) : AppState :=
  match s.racks.find? (fun r => decide (r.id = rackId)) with
  | none => s
  | some src =>
    let newId : Str := "rack-".data ++ natChars now
    let newRack : Rack :=
      { src with id := newId, name := src.name ++ " (Copy)".data, posX := src.posX + 5 }
    { s with racks := s.racks ++ [newRack], selectedRackId := newId }

/-- `deleteRack`: guarded no-op on a collection of size ≤ 1; otherwise
remove every rack with that id and, when the selected rack was deleted,
select `newRacks[0]`. (Should the filter empty the list — possible only
when several racks share the deleted id — the source throws a TypeError at
`newRacks[0].id` after `setRacks(newRacks)` was already issued; the model
keeps the previous selection there.) -/
def deleteRack (rackId : Str) (s : AppState) : AppState :=
  if s.racks.length ≤ 1 then s
  else
    let newRacks := s.racks.filter (fun r => decide (r.id ≠ rackId))
    { s with racks := newRacks
             selectedRackId :=
               if s.selectedRackId = rackId then
                 match newRacks with
                 | [] => s.selectedRackId
                 | r :: _ => r.id
               else s.selectedRackId }

/-- The rack management operations, each creation carrying the `Date.now()`
value it observes. -/
inductive RackOp
  | add (now : Nat)
  | dup (rackId : Str) (now : Nat)
  | del (rackId : Str)

def stepOp : RackOp → AppState → AppState
  | .add now, s => addNewRack now s
  | .dup rid now, s => duplicateRack rid now s
  | .del rid, s => deleteRack rid s

def runOps (ops : List RackOp) (s : AppState) : AppState :=
  ops.foldl (fun s op => stepOp op s) s

/-- The id `rack-${'$'}{Date.now()}` an add/duplicate would generate is not
already taken (no `Date.now()` collision with an existing id). -/
def opFresh : RackOp → AppState → Bool
  | .add now, s => !(s.racks.any (fun r => decide (r.id = "rack-".data ++ natChars now)))
  | .dup _ now, s => !(s.racks.any (fun r => decide (r.id = "rack-".data ++ natChars now)))
  | .del _, _ => true

/-- Freshness of every creation along a run. -/
def freshRun : List RackOp → AppState → Bool
  | [], _ => true
  | op :: rest, s => opFresh op s && freshRun rest (stepOp op s)

theorem append_fresh_nodup {l : List Rack} {newRack : Rack}
    (hnd : (l.map Rack.id).Nodup) (hfresh : newRack.id ∉ l.map Rack.id) :
    ((l ++ [newRack]).map Rack.id).Nodup := by
  rw [List.map_append, List.map_singleton]
  exact hnd.append (List.nodup_singleton _)
    ((List.disjoint_singleton).mpr hfresh)

theorem step_preserves_inv (op : RackOp) (s : AppState)
    (hne : s.racks ≠ []) (hnd : (s.racks.map Rack.id).Nodup)
    (hf : opFresh op s = true) :
    (stepOp op s).racks ≠ [] ∧ ((stepOp op s).racks.map Rack.id).Nodup := by
  cases op with
  | add now =>
    simp only [stepOp, addNewRack]
    refine ⟨by simp, append_fresh_nodup hnd ?_⟩
    simp only [opFresh, Bool.not_eq_true', List.any_eq_false, decide_eq_true_eq] at hf
    intro hmem
    obtain ⟨r, hr, hid⟩ := List.mem_map.mp hmem
    exact hf r hr hid
  | dup rid now =>
    simp only [stepOp, duplicateRack]
    cases hfind : s.racks.find? (fun r => decide (r.id = rid)) with
    | none => exact ⟨hne, hnd⟩
    | some src =>
      refine ⟨by simp, append_fresh_nodup hnd ?_⟩
      simp only [opFresh, Bool.not_eq_true', List.any_eq_false, decide_eq_true_eq] at hf
      intro hmem
      obtain ⟨r, hr, hid⟩ := List.mem_map.mp hmem
      exact hf r hr hid
  | del rid =>
    simp only [stepOp, deleteRack]
    split
    · exact ⟨hne, hnd⟩
    · rename_i hlen
      constructor
      · rcases hracks : s.racks with _ | ⟨a, tail⟩
        · exact absurd hracks hne
        · rcases tail with _ | ⟨b, rest⟩
          · rw [hracks] at hlen
            simp at hlen
          · have hab : a.id ≠ b.id := by
              rw [hracks] at hnd
              simp only [List.map_cons, List.nodup_cons, List.mem_cons] at hnd
              exact fun h => hnd.1 (Or.inl h)
            have hexists : ∃ r ∈ s.racks, r.id ≠ rid := by
              by_cases ha : a.id = rid
              · exact ⟨b, by rw [hracks]; simp, fun h => hab (by rw [ha, h])⟩
              · exact ⟨a, by rw [hracks]; simp, ha⟩
            obtain ⟨r, hr, hrid⟩ := hexists
            exact List.ne_nil_of_mem (List.mem_filter.mpr ⟨hracks ▸ hr, by simpa using hrid⟩)
      · exact hnd.sublist ((List.filter_sublist _).map Rack.id)

theorem run_preserves_inv (ops : List RackOp) :
    ∀ s : AppState, s.racks ≠ [] → (s.racks.map Rack.id).Nodup →
      freshRun ops s = true →
      (runOps ops s).racks ≠ [] ∧ ((runOps ops s).racks.map Rack.id).Nodup := by
  induction ops with
  | nil => exact fun s hne hnd _ => ⟨hne, hnd⟩
  | cons op rest ih =>
    intro s hne hnd hfresh
    rw [freshRun, Bool.and_eq_true] at hfresh
    obtain ⟨hinv1, hinv2⟩ := step_preserves_inv op s hne hnd hfresh.1
    exact ih (stepOp op s) hinv1 hinv2 hfresh.2

/-- **C7** (amended): deleting a rack when the collection has exactly one
rack is unconditionally a no-op, and under every sequence of add, duplicate
and delete operations in which the generated `rack-${'$'}{Date.now()}` ids
stay distinct from the existing ids (no clock collision), the rack
collection never becomes empty. -/
theorem rack_collection_never_empty (ops : List RackOp) (s : AppState)
    (hne : s.racks ≠ []) (hnd : (s.racks.map Rack.id).Nodup)
    (hfresh : freshRun ops s = true) :
    (runOps ops s).racks ≠ [] ∧
    (∀ rackId s', s'.racks.length = 1 → deleteRack rackId s' = s') := by
  refine ⟨(run_preserves_inv ops s hne hnd hfresh).1, ?_⟩
  intro rackId s' hlen
  unfold deleteRack
  rw [if_pos (by omega)]

/-- The initial application state: one default rack `rack-1`, selected. -/
def initialState : AppState where
  racks := [createNewRack ("rack-1".data) ("Rack 1".data) 0 0]
  selectedRackId := "rack-1".data
  maintenanceRecords := []
  componentHealth := []

/-- Witness for the amended C7: an add followed by deleting the original
rack leaves a nonempty collection, and deleting from the singleton initial
collection is a no-op. -/
theorem rack_collection_never_empty_witness :
    (runOps [RackOp.add 5, RackOp.del ("rack-1".data)] initialState).racks ≠ [] ∧
    deleteRack ("rack-1".data) initialState = initialState :=
  ⟨(rack_collection_never_empty [RackOp.add 5, RackOp.del ("rack-1".data)] initialState
      (by decide) (by decide) (by decide)).1,
   (rack_collection_never_empty [] initialState (by decide) (by decide) (by decide)).2
      ("rack-1".data) initialState (by decide)⟩

/-- **C7** counterexample: if two rack creations observe the same
`Date.now()` value, two racks share the id `rack-5`; deleting `rack-1` and
then `rack-5` empties the collection — the guard only checks the length,
and the filter removes both racks at once. -/
theorem rack_collection_emptied_counterexample :
    (runOps [RackOp.add 5, RackOp.del ("rack-1".data), RackOp.add 5,
        RackOp.del ("rack-".data ++ natChars 5)] initialState).racks = [] := by
  decide

/-- **C10**: deleting a present rack id from a collection of at least two
racks with distinct ids removes exactly that rack (the others survive
unchanged, in order), moves the selection to the first remaining rack
exactly when the deleted rack was selected, and leaves the
maintenance-record and component-health collections untouched. -/
theorem deleteRack_frame (s : AppState) (rid : Str)
    (hlen : 2 ≤ s.racks.length) (hnd : (s.racks.map Rack.id).Nodup)
    (hmem : rid ∈ s.racks.map Rack.id) :
    (∃ pre r post, r.id = rid ∧ s.racks = pre ++ r :: post ∧
        (deleteRack rid s).racks = pre ++ post) ∧
    (s.selectedRackId = rid →
        ∃ r0 rest, (deleteRack rid s).racks = r0 :: rest ∧
          (deleteRack rid s).selectedRackId = r0.id) ∧
    (s.selectedRackId ≠ rid →
        (deleteRack rid s).selectedRackId = s.selectedRackId) ∧
    (deleteRack rid s).maintenanceRecords = s.maintenanceRecords ∧
    (deleteRack rid s).componentHealth = s.componentHealth := by
  obtain ⟨r, hr, hid⟩ := List.mem_map.mp hmem
  obtain ⟨pre, post, hsplit⟩ := List.append_of_mem hr
  have hnd2 : r.id ∉ pre.map Rack.id ++ post.map Rack.id := by
    rw [hsplit, List.map_append, List.map_cons] at hnd
    exact (List.nodup_cons.mp (List.nodup_middle.mp hnd)).1
  have hpre : ∀ x ∈ pre, ¬(x.id = rid) := by
    intro x hx hxid
    exact hnd2 (List.mem_append_left _ (List.mem_map.mpr ⟨x, hx, by rw [hxid, hid]⟩))
  have hpost : ∀ x ∈ post, ¬(x.id = rid) := by
    intro x hx hxid
    exact hnd2 (List.mem_append_right _ (List.mem_map.mpr ⟨x, hx, by rw [hxid, hid]⟩))
  have hfilter : s.racks.filter (fun x => decide (x.id ≠ rid)) = pre ++ post := by
    rw [hsplit, List.filter_append, List.filter_cons]
    rw [List.filter_eq_self.mpr (fun x hx => by simpa using hpre x hx),
      List.filter_eq_self.mpr (fun x hx => by simpa using hpost x hx)]
    simp [hid]
  have hlen2 : ¬(s.racks.length ≤ 1) := by omega
  have hne2 : pre ++ post ≠ [] := by
    rw [hsplit] at hlen
    simp only [List.length_append, List.length_cons] at hlen
    have : 0 < (pre ++ post).length := by
      simp only [List.length_append]
      omega
    exact List.ne_nil_of_length_pos this
  obtain ⟨r0, rest, hr0⟩ := List.exists_cons_of_ne_nil hne2
  have hD : deleteRack rid s =
      { s with racks := r0 :: rest,
               selectedRackId :=
                 if s.selectedRackId = rid then r0.id else s.selectedRackId } := by
    unfold deleteRack
    rw [if_neg hlen2]
    simp only [hfilter, hr0]
  refine ⟨⟨pre, r, post, hid, hsplit, by rw [hD]; exact hr0.symm⟩, ?_, ?_, ?_, ?_⟩
  · intro hsel
    exact ⟨r0, rest, by rw [hD], by rw [hD]; simp [hsel]⟩
  · intro hsel
    rw [hD]
    simp [hsel]
  · rw [hD]
  · rw [hD]

/-- A concrete two-rack state with records and health entries keyed to the
first rack. -/
def twoRackState : AppState where
  racks := [createNewRack ("rack-1".data) ("Rack 1".data) 0 0,
            createNewRack ("rack-2".data) ("Rack 2".data) 5 0]
  selectedRackId := "rack-1".data
  maintenanceRecords := [("rack-1-beam-0-1-front".data, [])]
  componentHealth := [("rack-1-upright-0-front".data, "good".data)]

/-- Witness for C10: deleting the selected `rack-1` from the two-rack state
removes only it, selects the remaining first rack, and keeps the record and
health collections. -/
theorem deleteRack_frame_witness :
    (∃ pre r post, r.id = "rack-1".data ∧ twoRackState.racks = pre ++ r :: post ∧
        (deleteRack ("rack-1".data) twoRackState).racks = pre ++ post) ∧
    (twoRackState.selectedRackId = "rack-1".data →
        ∃ r0 rest, (deleteRack ("rack-1".data) twoRackState).racks = r0 :: rest ∧
          (deleteRack ("rack-1".data) twoRackState).selectedRackId = r0.id) ∧
    (twoRackState.selectedRackId ≠ "rack-1".data →
        (deleteRack ("rack-1".data) twoRackState).selectedRackId
          = twoRackState.selectedRackId) ∧
    (deleteRack ("rack-1".data) twoRackState).maintenanceRecords
      = twoRackState.maintenanceRecords ∧
    (deleteRack ("rack-1".data) twoRackState).componentHealth
      = twoRackState.componentHealth :=
  deleteRack_frame twoRackState ("rack-1".data) (by decide) (by decide) (by decide)

end Rackcentral
